import Mathlib

/-!
Verification development for the `base_socket` template
(src/env/inc/base_socket.hpp and the unnamed variant src/unnamed/part_000).

The two source files share, line for line, the network-interface resolver
`get_iface_info_`.  This file gives a shallow embedding of the AF_INET
instantiation of that resolver (the AF_INET6 instantiation differs only in
address width and in reading `sin6_scope_id`), of the OS conversion
collaborators it calls (`inet_ntop` / `inet_pton` for AF_INET), and of the
domain-mode constructor/accessor pair of the hpp variant.

Byte-order note.  `inet_pton` writes the parsed address into memory in
network byte order; the source then reads those bytes as a host `uint32_t`
(`num_addr_t num_addr; ::inet_pton(family, ..., &num_addr);`) and right-shifts
that value until zero.  On the little-endian hosts this code targets, the
`uint32_t` so obtained is the byte-swap of the mask's numeric (big-endian)
value; the spec's own expected prefix lengths (24/16/32 for the three
canonical masks) are produced only under this little-endian reading, so the
embedding fixes it.
-/

/-- Iteration count of the loop `while (num > 0) { num >>= 1; cnt++; }`,
with explicit fuel so that the kernel can evaluate it; the fuel is the
initial value itself, which bounds the iteration count. -/
def bitLenGo : Nat → Nat → Nat
  | _, 0 => 0
  | 0, _ + 1 => 0
  | fuel + 1, m + 1 => bitLenGo fuel ((m + 1) / 2) + 1

/-- Number of right-shifts needed to reach zero (the bit length); this is
what the source's shift loop stores into `info.pflen`. -/
def bitLen (n : Nat) : Nat := bitLenGo n n

/-- Fuel-driven helper for `popCount`. -/
def popCountGo : Nat → Nat → Nat
  | _, 0 => 0
  | 0, _ + 1 => 0
  | fuel + 1, m + 1 => (m + 1) % 2 + popCountGo fuel ((m + 1) / 2)

/-- Number of one-bits of a natural number; the spec's "number of one-bits
set in the mask". -/
def popCount (n : Nat) : Nat := popCountGo n n

/-- Value of the 4 network-byte-order bytes of a 32-bit quantity when read
back as a little-endian host `uint32_t` (byte swap). -/
def byteswap32 (b : Nat) : Nat :=
  b % 256 * 2 ^ 24 + b / 2 ^ 8 % 256 * 2 ^ 16 + b / 2 ^ 16 % 256 * 2 ^ 8 +
    b / 2 ^ 24 % 256

/-- Canonical contiguous IPv4 netmask with `k` leading one-bits, as a
big-endian numeric value (e.g. `maskOfPflen 24 = 0xFFFFFF00`). -/
def maskOfPflen (k : Nat) : Nat := 2 ^ 32 - 2 ^ (32 - k)

/-- Decimal digit list of a natural number, as rendered by `"%u"`. -/
def reprDigits (n : Nat) : List Char := (Nat.repr n).data

/-- Model of `inet_ntop(AF_INET, ...)`: renders the four network-order bytes
of the address as `"%u.%u.%u.%u"`.  The address is carried as its big-endian
numeric value, so the first printed byte is the high byte. -/
def ntop4 (a : Nat) : String :=
  ⟨reprDigits (a / 2 ^ 24 % 256) ++
    '.' :: (reprDigits (a / 2 ^ 16 % 256) ++
      '.' :: (reprDigits (a / 2 ^ 8 % 256) ++
        '.' :: reprDigits (a % 256)))⟩

/-- Splits a character list on `'.'` (the dotted-quad separator). -/
def splitOnDotCh : List Char → List (List Char)
  | [] => [[]]
  | c :: rest =>
    if c = '.' then [] :: splitOnDotCh rest
    else
      match splitOnDotCh rest with
      | [] => [[c]]
      | p :: ps => (c :: p) :: ps

/-- Parses one dotted-quad component as `inet_pton(AF_INET, ...)` does:
one to three decimal digits, no leading zero, value at most 255. -/
def parseByte (l : List Char) : Option Nat :=
  if 1 ≤ l.length && l.length ≤ 3 && l.all Char.isDigit &&
      (l.length == 1 || !(l.head? == some '0')) then
    let v := l.foldl (fun acc c => acc * 10 + (c.toNat - 48)) 0
    if v ≤ 255 then some v else none
  else none

/-- Model of `inet_pton(AF_INET, ...)`: parses a dotted quad into the
big-endian numeric value of the four bytes it writes, or fails. -/
def pton4 (s : String) : Option Nat :=
  match splitOnDotCh s.data with
  | [p0, p1, p2, p3] =>
    match parseByte p0, parseByte p1, parseByte p2, parseByte p3 with
    | some b0, some b1, some b2, some b3 =>
      some (b0 * 2 ^ 24 + b1 * 2 ^ 16 + b2 * 2 ^ 8 + b3)
    | _, _, _, _ => none
  | _ => none

/-- A string is a syntactically valid IPv4 address iff `inet_pton` accepts
it. -/
def isValidIPv4 (s : String) : Bool := (pton4 s).isSome

/-- Modelled from the spec: the libcidr collaborator
(`cidr_from_str` on `"host/pflen"`, `cidr_addr_broadcast`, `cidr_to_str`
with `CIDR_ONLYADDR`, source lines 155-158 / 138-141) is not under src/.
Per the spec it computes the broadcast address of the denoted network: the
address with every host bit set to one, rendered without the prefix.  The
arithmetic `a / 2^h * 2^h + (2^h - 1)` with `h` host bits is that
bit-setting.  An unparseable host string (unreachable from the resolver,
which always passes an `inet_ntop` result) is modelled as the empty
string. -/
def cidrBroadcastStr (host : String) (pflen : Nat) : String :=
  match pton4 host with
  | some a =>
    ntop4 (a / 2 ^ (32 - min pflen 32) * 2 ^ (32 - min pflen 32) +
      (2 ^ (32 - min pflen 32) - 1))
  | none => ""

/-- The `AF_INET` constant of the descriptor's configured family. -/
def AF_INET : Nat := 2

/-- Errors thrown by `get_iface_info_` (`throw std::runtime_error` sites,
in source order). -/
inductive ResolveErr where
  /-- `getifaddrs()` itself returned non-zero. -/
  | enumFailed
  /-- The scan completed without a match. -/
  | ifaceNotFound
  /-- `inet_ntop` on the host address did not return the buffer. -/
  | hostConvFailed
  /-- `inet_ntop` on the netmask did not return the buffer. -/
  | netmaskConvFailed
deriving DecidableEq

/-- The `iface_netinfo_t` value type.  The fixed `char` arrays hold
NUL-terminated strings and are modelled as the strings they hold. -/
structure iface_netinfo_t where
  host_addr : String
  netmask : String
  broadcast : String
  pflen : Nat
  scopeid : Nat
deriving DecidableEq

/-- One address record of an `ifaddrs` entry: the `sa_family` tag, the
binary address (big-endian numeric value of the 4 bytes of `sin_addr`), and
the scope identifier the OS supplies for IPv6 records (the IPv4 code path
never reads it). -/
structure sockaddr_rec where
  sa_family : Nat
  addr : Nat
  scope : Nat
deriving DecidableEq

/-- One entry of the linked list `getifaddrs` returns: interface name, the
possibly-null `ifa_addr`, and the binary netmask of `ifa_netmask` (the
source dereferences `ifa_netmask` without a null check once `ifa_addr`
matched, so it is modelled as present). -/
structure ifaddrs_rec where
  ifa_name : String
  ifa_addr : Option sockaddr_rec
  ifa_netmask : Nat
deriving DecidableEq

/-- The OS address-conversion collaborators as the resolver sees them:
binary-to-text (`inet_ntop`) and text-to-binary (`inet_pton`).  `pton`
returns the `uint32_t` the caller's buffer holds after the call, i.e. the
network-order bytes read back on the little-endian host. -/
structure ConvEnv where
  ntop : Nat → Option String
  pton : String → Option Nat

/-- The real AF_INET conversions: `ntop` always renders the dotted quad
(the buffer passed in the source is `INET_ADDRSTRLEN` bytes, large enough),
and `pton` parses it back, delivering the little-endian reading of the four
network-order bytes it wrote. -/
def env4 : ConvEnv :=
  { ntop := fun a => some (ntop4 a)
    pton := fun s => (pton4 s).map byteswap32 }

/-- Body of the matched-entry branch of `get_iface_info_` (source lines
126-166 of base_socket.hpp / 109-149 of part_000), AF_INET instantiation:
convert host address and netmask to text (each failure throws), re-parse
the textual netmask (return value ignored: on failure `num_addr` keeps its
indeterminate initial value, modelled by `jN % 2^32`), count right-shifts
to get `pflen`, obtain the broadcast string from the CIDR collaborator, and
populate the info.  `info.scopeid` receives the local `scopeid`, which the
IPv4 path never writes: it is the indeterminate `jS`. -/
def processEntry (env : ConvEnv) (jN jS : Nat) (e : ifaddrs_rec)
    (sa : sockaddr_rec) : Except ResolveErr iface_netinfo_t :=
  match env.ntop sa.addr with
  | none => .error .hostConvFailed
  | some host_str =>
    match env.ntop e.ifa_netmask with
    | none => .error .netmaskConvFailed
    | some mask_str =>
      let num := (env.pton mask_str).getD (jN % 2 ^ 32) % 2 ^ 32
      let pflen := bitLen num
      let broadcast_str := cidrBroadcastStr host_str pflen
      .ok { host_addr := host_str, netmask := mask_str,
            broadcast := broadcast_str, pflen := pflen, scopeid := jS }

/-- The scan loop of `get_iface_info_` (source lines 122-174 / 105-157):
walk the list; entries with null `ifa_addr`, a foreign family, or a
different name are skipped; the first match is processed and returned. -/
def scan_ifaddrs (env : ConvEnv) (jN jS : Nat) (ifname : String) :
    List ifaddrs_rec → Except ResolveErr iface_netinfo_t
  | [] => .error .ifaceNotFound
  | e :: rest =>
    match e.ifa_addr with
    | none => scan_ifaddrs env jN jS ifname rest
    | some sa =>
      if sa.sa_family = AF_INET then
        if e.ifa_name = ifname then processEntry env jN jS e sa
        else scan_ifaddrs env jN jS ifname rest
      else scan_ifaddrs env jN jS ifname rest

/-- `get_iface_info_`, AF_INET instantiation.  `ifaces` is the outcome of
`getifaddrs`: `none` when the call itself fails, otherwise the linked list
it produced.  `jN` and `jS` are the indeterminate initial values of the
uninitialized locals `num_addr` and `scopeid`. -/
def get_iface_info_ (env : ConvEnv) (jN jS : Nat)
    (ifaces : Option (List ifaddrs_rec)) (ifname : String) :
    Except ResolveErr iface_netinfo_t :=
  match ifaces with
  | none => .error .enumFailed
  | some l => scan_ifaddrs env jN jS ifname l

/-- The resolver with the real AF_INET conversions. -/
def get_iface_info4 (jN jS : Nat) (ifaces : Option (List ifaddrs_rec))
    (ifname : String) : Except ResolveErr iface_netinfo_t :=
  get_iface_info_ env4 jN jS ifaces ifname

/-- OS / library resources the resolver acquires and releases:
the `getifaddrs` list, the two CIDR handles, and the `cidr_to_str`
string. -/
inductive Event where
  | allocIfaddrs
  | freeIfaddrs
  | allocCidrAddr
  | freeCidrAddr
  | allocCidrBroadcast
  | freeCidrBroadcast
  | allocBroadcastStr
  | freeBroadcastStr
deriving DecidableEq, BEq

/-- `processEntry` instrumented with the acquire/release events the source
performs in this branch, in source order: on success it allocates
`cidr_addr`, `cidr_broadcast` and the broadcast string, then frees the
string, both handles and finally the interface list (lines 155-165 /
138-148); the two `throw` sites free nothing. -/
def processEntryTrace (env : ConvEnv) (jN jS : Nat) (e : ifaddrs_rec)
    (sa : sockaddr_rec) : Except ResolveErr iface_netinfo_t × List Event :=
  match env.ntop sa.addr with
  | none => (.error .hostConvFailed, [])
  | some host_str =>
    match env.ntop e.ifa_netmask with
    | none => (.error .netmaskConvFailed, [])
    | some mask_str =>
      let num := (env.pton mask_str).getD (jN % 2 ^ 32) % 2 ^ 32
      let pflen := bitLen num
      let broadcast_str := cidrBroadcastStr host_str pflen
      (.ok { host_addr := host_str, netmask := mask_str,
             broadcast := broadcast_str, pflen := pflen, scopeid := jS },
       [.allocCidrAddr, .allocCidrBroadcast, .allocBroadcastStr,
        .freeBroadcastStr, .freeCidrBroadcast, .freeCidrAddr,
        .freeIfaddrs])

/-- The scan loop instrumented with events; skipping allocates nothing, and
the not-found `throw` after the loop frees nothing. -/
def scanTrace (env : ConvEnv) (jN jS : Nat) (ifname : String) :
    List ifaddrs_rec → Except ResolveErr iface_netinfo_t × List Event
  | [] => (.error .ifaceNotFound, [])
  | e :: rest =>
    match e.ifa_addr with
    | none => scanTrace env jN jS ifname rest
    | some sa =>
      if sa.sa_family = AF_INET then
        if e.ifa_name = ifname then processEntryTrace env jN jS e sa
        else scanTrace env jN jS ifname rest
      else scanTrace env jN jS ifname rest

/-- `get_iface_info_` instrumented with resource events: a successful
`getifaddrs` acquires the interface list before the scan runs; a failing
one acquires nothing. -/
def get_iface_info_trace (env : ConvEnv) (jN jS : Nat)
    (ifaces : Option (List ifaddrs_rec)) (ifname : String) :
    Except ResolveErr iface_netinfo_t × List Event :=
  match ifaces with
  | none => (.error .enumFailed, [])
  | some l =>
    let r := scanTrace env jN jS ifname l
    (r.1, .allocIfaddrs :: r.2)

/-- Every acquired resource of the trace has been released: the alloc and
free counts agree for each of the four resources. -/
def released (evs : List Event) : Bool :=
  (evs.count .allocIfaddrs == evs.count .freeIfaddrs) &&
  (evs.count .allocCidrAddr == evs.count .freeCidrAddr) &&
  (evs.count .allocCidrBroadcast == evs.count .freeCidrBroadcast) &&
  (evs.count .allocBroadcastStr == evs.count .freeBroadcastStr)

/-- Discriminator for `Except` results (construction succeeded). -/
def isOkE (r : Except ResolveErr iface_netinfo_t) : Bool :=
  match r with
  | .ok _ => true
  | .error _ => false

/-- Projection: the derived prefix length of a successful resolution. -/
def pflenOf (r : Except ResolveErr iface_netinfo_t) : Option Nat :=
  match r with
  | .ok i => some i.pflen
  | .error _ => none

/-- Projection: the textual netmask of a successful resolution. -/
def netmaskOf (r : Except ResolveErr iface_netinfo_t) : Option String :=
  match r with
  | .ok i => some i.netmask
  | .error _ => none

/-- Projection: the broadcast field of a successful resolution. -/
def broadcastOf (r : Except ResolveErr iface_netinfo_t) : Option String :=
  match r with
  | .ok i => some i.broadcast
  | .error _ => none

/-- The AF_UNIX instantiation of `base_socket` (hpp variant): the members
`if_` and `iface_path_info_`, the latter being `const std::string` in
domain mode. -/
structure base_socket_unix where
  if_ : String
  iface_path_info_ : String
deriving DecidableEq

/-- The domain-mode constructor (base_socket.hpp lines 57-59): its
initializer list is `if_(path), threads_cnt_(0u)`, so `iface_path_info_`
is default-constructed to the empty string. -/
def mk_base_socket_domain (p : String) : base_socket_unix :=
  { if_ := p, iface_path_info_ := "" }

/-- The domain-mode accessor `path()` (base_socket.hpp lines 69-72): it
returns `iface_path_info_`. -/
def base_socket_unix.path (s : base_socket_unix) : String :=
  s.iface_path_info_

/-- Synthetic `getifaddrs` entry named `eth0`, address `192.168.1.10`,
netmask the canonical `/k` mask. -/
def maskEntry (k : Nat) : ifaddrs_rec :=
  { ifa_name := "eth0"
    ifa_addr := some { sa_family := 2, addr := 0xC0A8010A, scope := 0 }
    ifa_netmask := maskOfPflen k }

/-- Synthetic loopback entry (non-matching name for the `eth0` queries). -/
def loEntry : ifaddrs_rec :=
  { ifa_name := "lo"
    ifa_addr := some { sa_family := 2, addr := 0x7F000001, scope := 0 }
    ifa_netmask := 0xFF000000 }

/-- A second `eth0` entry in the same family with a different address,
used to show that later matches are ignored. -/
def otherEth0 : ifaddrs_rec :=
  { ifa_name := "eth0"
    ifa_addr := some { sa_family := 2, addr := 0x0A000001, scope := 0 }
    ifa_netmask := 0xFFFF0000 }

set_option maxRecDepth 8192 in
/-- Rendering a byte in decimal and re-parsing it with the `inet_pton`
component parser is the identity. -/
theorem parseByte_reprDigits : ∀ b < 256, parseByte (reprDigits b) = some b := by
  decide

set_option maxRecDepth 8192 in
/-- The decimal rendering of a byte contains no dot. -/
theorem no_dot_reprDigits : ∀ b < 256, '.' ∉ reprDigits b := by
  decide

/-- Reduction of the splitter at a leading dot. -/
theorem splitOnDotCh_cons_dot (rest : List Char) :
    splitOnDotCh ('.' :: rest) = [] :: splitOnDotCh rest := by
  simp [splitOnDotCh]

/-- Reduction of the splitter at a non-dot head character. -/
theorem splitOnDotCh_cons_ne (c : Char) (rest : List Char) (h : ¬ c = '.') :
    splitOnDotCh (c :: rest) =
      match splitOnDotCh rest with
      | [] => [[c]]
      | p :: ps => (c :: p) :: ps := by
  simp [splitOnDotCh, h]

/-- Splitting a dot-free list yields the list itself as the only part. -/
theorem splitOnDot_no_dot (l : List Char) (h : '.' ∉ l) :
    splitOnDotCh l = [l] := by
  induction l with
  | nil => rfl
  | cons c rest ih =>
    have hc : ¬ c = '.' := fun hceq => h (hceq ▸ List.mem_cons_self c rest)
    have hr : '.' ∉ rest := fun hm => h (List.mem_cons_of_mem c hm)
    rw [splitOnDotCh_cons_ne c rest hc, ih hr]

/-- Splitting consumes a dot-free head part up to the first dot. -/
theorem splitOnDot_append (l1 l2 : List Char) (h : '.' ∉ l1) :
    splitOnDotCh (l1 ++ '.' :: l2) = l1 :: splitOnDotCh l2 := by
  induction l1 with
  | nil =>
    rw [List.nil_append, splitOnDotCh_cons_dot]
  | cons c rest ih =>
    have hc : ¬ c = '.' := fun hceq => h (hceq ▸ List.mem_cons_self c rest)
    have hr : '.' ∉ rest := fun hm => h (List.mem_cons_of_mem c hm)
    rw [List.cons_append, splitOnDotCh_cons_ne c _ hc, ih hr]

/-- Re-parsing the rendered dotted quad of any address recovers the four
bytes (the `inet_ntop` / `inet_pton` roundtrip of the resolver). -/
theorem pton4_ntop4 (a : Nat) :
    pton4 (ntop4 a) =
      some (a / 2 ^ 24 % 256 * 2 ^ 24 + a / 2 ^ 16 % 256 * 2 ^ 16 +
        a / 2 ^ 8 % 256 * 2 ^ 8 + a % 256) := by
  have h0 : a / 2 ^ 24 % 256 < 256 := Nat.mod_lt _ (by norm_num)
  have h1 : a / 2 ^ 16 % 256 < 256 := Nat.mod_lt _ (by norm_num)
  have h2 : a / 2 ^ 8 % 256 < 256 := Nat.mod_lt _ (by norm_num)
  have h3 : a % 256 < 256 := Nat.mod_lt _ (by norm_num)
  show (match splitOnDotCh (ntop4 a).data with
    | [p0, p1, p2, p3] =>
      match parseByte p0, parseByte p1, parseByte p2, parseByte p3 with
      | some b0, some b1, some b2, some b3 =>
        some (b0 * 2 ^ 24 + b1 * 2 ^ 16 + b2 * 2 ^ 8 + b3)
      | _, _, _, _ => none
    | _ => none) = _
  have hdata : (ntop4 a).data =
      reprDigits (a / 2 ^ 24 % 256) ++
        '.' :: (reprDigits (a / 2 ^ 16 % 256) ++
          '.' :: (reprDigits (a / 2 ^ 8 % 256) ++
            '.' :: reprDigits (a % 256))) := rfl
  rw [hdata,
    splitOnDot_append _ _ (no_dot_reprDigits _ h0),
    splitOnDot_append _ _ (no_dot_reprDigits _ h1),
    splitOnDot_append _ _ (no_dot_reprDigits _ h2),
    splitOnDot_no_dot _ (no_dot_reprDigits _ h3)]
  simp only [parseByte_reprDigits _ h0, parseByte_reprDigits _ h1,
    parseByte_reprDigits _ h2, parseByte_reprDigits _ h3]

/-- Every string `inet_ntop` renders is a syntactically valid IPv4
address. -/
theorem ntop4_valid (a : Nat) : isValidIPv4 (ntop4 a) = true := by
  unfold isValidIPv4
  rw [pton4_ntop4]
  rfl

/-- Every string `inet_ntop` renders is non-empty. -/
theorem ntop4_ne_empty (a : Nat) : ntop4 a ≠ "" := by
  intro h
  have hv := ntop4_valid a
  rw [h] at hv
  exact absurd hv (by decide)

/-- The broadcast string the CIDR collaborator computes from a rendered
host address is itself a rendered address, hence valid and non-empty. -/
theorem cidrBroadcastStr_ntop4 (a p : Nat) :
    isValidIPv4 (cidrBroadcastStr (ntop4 a) p) = true ∧
      cidrBroadcastStr (ntop4 a) p ≠ "" := by
  unfold cidrBroadcastStr
  rw [pton4_ntop4]
  exact ⟨ntop4_valid _, ntop4_ne_empty _⟩

/-- An entry is skipped by the scan iff it has no address, a foreign
family, or a different name. -/
def SkipEntry (name : String) (e' : ifaddrs_rec) : Prop :=
  match e'.ifa_addr with
  | none => True
  | some sa' => ¬(sa'.sa_family = AF_INET ∧ e'.ifa_name = name)

instance (name : String) (e' : ifaddrs_rec) : Decidable (SkipEntry name e') := by
  unfold SkipEntry
  cases e'.ifa_addr with
  | none => exact isTrue trivial
  | some sa' =>
    exact inferInstanceAs (Decidable ¬(sa'.sa_family = AF_INET ∧ e'.ifa_name = name))

/-- Every entry of the list is skipped by the scan for `name`. -/
def NoMatch (name : String) (l : List ifaddrs_rec) : Prop :=
  ∀ e' ∈ l, SkipEntry name e'

instance (name : String) (l : List ifaddrs_rec) : Decidable (NoMatch name l) :=
  List.decidableBAll _ l

/-- The scan over `pre ++ e :: post` with no match in `pre` and `e`
matching lands exactly in the processing of `e`; the result does not
depend on `post`. -/
theorem scan_first_match (env : ConvEnv) (jN jS : Nat) (name : String)
    (pre post : List ifaddrs_rec) (e : ifaddrs_rec) (sa : sockaddr_rec)
    (he : e.ifa_addr = some sa) (hf : sa.sa_family = AF_INET)
    (hn : e.ifa_name = name) (hpre : NoMatch name pre) :
    scan_ifaddrs env jN jS name (pre ++ e :: post) =
      processEntry env jN jS e sa := by
  induction pre with
  | nil =>
    rw [List.nil_append]
    simp only [scan_ifaddrs, he]
    rw [if_pos hf, if_pos hn]
  | cons p ps ih =>
    have hp := hpre p (List.mem_cons_self p ps)
    have hrec : NoMatch name ps := fun e' hm => hpre e' (List.mem_cons_of_mem p hm)
    rw [List.cons_append]
    cases hpa : p.ifa_addr with
    | none =>
      simp only [scan_ifaddrs, hpa]
      exact ih hrec
    | some sa' =>
      have hp' : ¬(sa'.sa_family = AF_INET ∧ p.ifa_name = name) := by
        unfold SkipEntry at hp
        rw [hpa] at hp
        exact hp
      simp only [scan_ifaddrs, hpa]
      by_cases h1 : sa'.sa_family = AF_INET
      · have h2 : ¬ p.ifa_name = name := fun h2 => hp' ⟨h1, h2⟩
        rw [if_pos h1, if_neg h2]
        exact ih hrec
      · rw [if_neg h1]
        exact ih hrec

/-- Conversion environment in which the text-to-binary re-parse
(`inet_pton`) reports failure on every input while binary-to-text
(`inet_ntop`) behaves normally. -/
def env_noPton : ConvEnv :=
  { ntop := fun a => some (ntop4 a), pton := fun _ => none }

/-- Conversion environment in which `inet_ntop` fails on every input. -/
def env_noNtop : ConvEnv :=
  { ntop := fun _ => none, pton := env4.pton }

/-- Conversion environment in which `inet_ntop` fails exactly on the
binary `/24` netmask, succeeding on everything else. -/
def env_maskFail : ConvEnv :=
  { ntop := fun a => if a = 0xFFFFFF00 then none else some (ntop4 a)
    pton := env4.pton }

/-- The info value the resolver computes for the synthetic `/24` entry. -/
def info24 : iface_netinfo_t :=
  { host_addr := "192.168.1.10", netmask := "255.255.255.0",
    broadcast := "192.168.1.255", pflen := 24, scopeid := 0 }

/-- C1 counterexample: for the canonical contiguous netmask
`255.255.240.0` (prefix length 20) the resolver's derivation yields 24,
not the number of one-bits, which is 20.  The shift loop runs on the
little-endian reading of the network-order mask bytes, whose bit length is
`8 * ceil(k/8)`, not `k`, for prefixes that are not byte-aligned. -/
theorem pflen_popcount_cex :
    pflenOf (get_iface_info4 0 0 (some [maskEntry 20]) "eth0") = some 24 ∧
    popCount (maskOfPflen 20) = 20 ∧
    pflenOf (get_iface_info4 0 0 (some [maskEntry 20]) "eth0") ≠
      some (popCount (maskOfPflen 20)) :=
  ⟨rfl, rfl, by decide⟩

/-- C1 (amended): for every canonical contiguous netmask whose prefix
length is a multiple of 8 (byte-aligned masks), the resolver's derivation
(parse the textual netmask back to binary, right-shift until zero) yields
a prefix length equal to the number of one-bits set in the mask. -/
theorem pflen_popcount_byte_aligned :
    ∀ k : Nat, k ≤ 32 → k % 8 = 0 →
      pflenOf (get_iface_info4 0 0 (some [maskEntry k]) "eth0") =
        some (popCount (maskOfPflen k)) := by
  intro k hk hm
  have hcase : k = 0 ∨ k = 8 ∨ k = 16 ∨ k = 24 ∨ k = 32 := by omega
  rcases hcase with rfl | rfl | rfl | rfl | rfl <;> rfl

/-- Witness for the amended C1 theorem at the byte-aligned prefix 16. -/
theorem pflen_popcount_byte_aligned_witness :
    16 ≤ 32 ∧ 16 % 8 = 0 ∧
      pflenOf (get_iface_info4 0 0 (some [maskEntry 16]) "eth0") =
        some (popCount (maskOfPflen 16)) :=
  ⟨by decide, by decide, pflen_popcount_byte_aligned 16 (by decide) (by decide)⟩

/-- C2: for the netmask `255.255.255.0` the resolver derives prefix length
24; for `255.255.0.0` it derives 16; for `255.255.255.255` it derives 32
(each on a synthetic matching entry carrying that binary netmask). -/
theorem pflen_concrete_masks :
    netmaskOf (get_iface_info4 0 0 (some [maskEntry 24]) "eth0") =
      some "255.255.255.0" ∧
    pflenOf (get_iface_info4 0 0 (some [maskEntry 24]) "eth0") = some 24 ∧
    netmaskOf (get_iface_info4 0 0 (some [maskEntry 16]) "eth0") =
      some "255.255.0.0" ∧
    pflenOf (get_iface_info4 0 0 (some [maskEntry 16]) "eth0") = some 16 ∧
    netmaskOf (get_iface_info4 0 0 (some [maskEntry 32]) "eth0") =
      some "255.255.255.255" ∧
    pflenOf (get_iface_info4 0 0 (some [maskEntry 32]) "eth0") = some 32 :=
  ⟨rfl, rfl, rfl, rfl, rfl, rfl⟩

/-- C7: the IPv4 resolver copies the uninitialized local `scopeid` into
`info.scopeid` (the local is only written in the `is_ipv6` branch and the
struct field has no initializer), so the returned `scopeid` is whatever
the indeterminate initial value was — here 7 and 5 — and not zero, even
though the matched entry's own scope field is 0. -/
theorem scopeid_uninitialized_ipv4 :
    get_iface_info4 0 7 (some [maskEntry 24]) "eth0" =
      .ok { host_addr := "192.168.1.10", netmask := "255.255.255.0",
            broadcast := "192.168.1.255", pflen := 24, scopeid := 7 } ∧
    get_iface_info4 0 5 (some [maskEntry 24]) "eth0" =
      .ok { host_addr := "192.168.1.10", netmask := "255.255.255.0",
            broadcast := "192.168.1.255", pflen := 24, scopeid := 5 } :=
  ⟨rfl, rfl⟩

/-- C8: the domain-mode constructor stores the path only in `if_` and
leaves `iface_path_info_` default-constructed, so the `path()` accessor
returns the empty string, not the path it was constructed with. -/
theorem domain_path_accessor_empty :
    (mk_base_socket_domain "/tmp/sock").path = "" ∧
    (mk_base_socket_domain "/tmp/sock").path ≠ "/tmp/sock" :=
  ⟨rfl, by decide⟩

/-- C10: for host address `192.168.1.10` and derived prefix length 24 the
CIDR step computes broadcast `192.168.1.255`, and that is what the
resolver stores in the broadcast field of the info for the synthetic `/24`
entry. -/
theorem broadcast_concrete :
    cidrBroadcastStr "192.168.1.10" 24 = "192.168.1.255" ∧
    pflenOf (get_iface_info4 0 0 (some [maskEntry 24]) "eth0") = some 24 ∧
    broadcastOf (get_iface_info4 0 0 (some [maskEntry 24]) "eth0") =
      some "192.168.1.255" :=
  ⟨rfl, rfl, rfl⟩

/-- Field shape of a successful `processEntry` under the real AF_INET
conversions: host and netmask are `inet_ntop` renderings and the broadcast
comes from the CIDR step on the rendered host. -/
theorem processEntry_env4_fields (jN jS : Nat) (e : ifaddrs_rec)
    (sa : sockaddr_rec) (info : iface_netinfo_t)
    (h : processEntry env4 jN jS e sa = .ok info) :
    info.host_addr = ntop4 sa.addr ∧ info.netmask = ntop4 e.ifa_netmask ∧
      ∃ p, info.broadcast = cidrBroadcastStr (ntop4 sa.addr) p := by
  have h' : Except.ok (ε := ResolveErr)
      { host_addr := ntop4 sa.addr, netmask := ntop4 e.ifa_netmask,
        broadcast := cidrBroadcastStr (ntop4 sa.addr)
          (bitLen (((pton4 (ntop4 e.ifa_netmask)).map byteswap32).getD
            (jN % 2 ^ 32) % 2 ^ 32)),
        pflen := bitLen (((pton4 (ntop4 e.ifa_netmask)).map byteswap32).getD
          (jN % 2 ^ 32) % 2 ^ 32),
        scopeid := jS } = .ok info := h
  injection h' with h''
  rw [← h'']
  exact ⟨rfl, rfl, ⟨_, rfl⟩⟩

/-- C3: whenever resolution (and thus network-mode construction) succeeds,
each of the three textual fields of the returned info — host address,
netmask and broadcast — is a non-empty, syntactically valid IPv4 address
string; the `Except` result type carries no partially populated value. -/
theorem resolver_ok_fields_valid :
    ∀ (jN jS : Nat) (ifaces : Option (List ifaddrs_rec)) (name : String)
      (info : iface_netinfo_t),
      get_iface_info4 jN jS ifaces name = .ok info →
      info.host_addr ≠ "" ∧ isValidIPv4 info.host_addr = true ∧
      info.netmask ≠ "" ∧ isValidIPv4 info.netmask = true ∧
      info.broadcast ≠ "" ∧ isValidIPv4 info.broadcast = true := by
  intro jN jS ifaces name info
  cases ifaces with
  | none => exact fun h => Except.noConfusion h
  | some l =>
    induction l with
    | nil => exact fun h => Except.noConfusion h
    | cons e rest ih =>
      intro h
      have h' : scan_ifaddrs env4 jN jS name (e :: rest) = .ok info := h
      cases hpa : e.ifa_addr with
      | none =>
        simp only [scan_ifaddrs, hpa] at h'
        exact ih h'
      | some sa =>
        simp only [scan_ifaddrs, hpa] at h'
        by_cases h1 : sa.sa_family = AF_INET
        · by_cases h2 : e.ifa_name = name
          · rw [if_pos h1, if_pos h2] at h'
            obtain ⟨hh, hm, p, hb⟩ := processEntry_env4_fields jN jS e sa info h'
            rw [hh, hm, hb]
            exact ⟨ntop4_ne_empty _, ntop4_valid _, ntop4_ne_empty _,
              ntop4_valid _, (cidrBroadcastStr_ntop4 _ _).2,
              (cidrBroadcastStr_ntop4 _ _).1⟩
          · rw [if_pos h1, if_neg h2] at h'
            exact ih h'
        · rw [if_neg h1] at h'
          exact ih h'

/-- Witness for C3 at the synthetic `/24` entry. -/
theorem resolver_ok_fields_valid_witness :
    info24.host_addr ≠ "" ∧ isValidIPv4 info24.host_addr = true ∧
    info24.netmask ≠ "" ∧ isValidIPv4 info24.netmask = true ∧
    info24.broadcast ≠ "" ∧ isValidIPv4 info24.broadcast = true :=
  resolver_ok_fields_valid 0 0 (some [maskEntry 24]) "eth0" info24 rfl

/-- C4: when no entry of the interface list matches (assigned address,
configured family, requested name), resolution fails with the
interface-not-found error — for any conversion environment and any
indeterminate locals — and, the result being an `Except.error`, no
zero-valued or partially populated info is returned. -/
theorem resolver_not_found :
    ∀ (env : ConvEnv) (jN jS : Nat) (l : List ifaddrs_rec) (name : String),
      NoMatch name l →
      get_iface_info_ env jN jS (some l) name = .error .ifaceNotFound := by
  intro env jN jS l name
  induction l with
  | nil => exact fun _ => rfl
  | cons e rest ih =>
    intro h
    have he := h e (List.mem_cons_self e rest)
    have hr : NoMatch name rest := fun e' hm => h e' (List.mem_cons_of_mem e hm)
    show scan_ifaddrs env jN jS name (e :: rest) = _
    cases hpa : e.ifa_addr with
    | none =>
      simp only [scan_ifaddrs, hpa]
      exact ih hr
    | some sa =>
      have he' : ¬(sa.sa_family = AF_INET ∧ e.ifa_name = name) := by
        unfold SkipEntry at he
        rw [hpa] at he
        exact he
      simp only [scan_ifaddrs, hpa]
      by_cases h1 : sa.sa_family = AF_INET
      · have h2 : ¬ e.ifa_name = name := fun hh => he' ⟨h1, hh⟩
        rw [if_pos h1, if_neg h2]
        exact ih hr
      · rw [if_neg h1]
        exact ih hr

/-- Witness for C4: a list with a loopback entry and an `eth0` entry holds
no match for `wlan0`. -/
theorem resolver_not_found_witness :
    NoMatch "wlan0" [loEntry, maskEntry 24] ∧
    get_iface_info_ env4 0 0 (some [loEntry, maskEntry 24]) "wlan0" =
      .error .ifaceNotFound :=
  ⟨by decide,
   resolver_not_found env4 0 0 [loEntry, maskEntry 24] "wlan0" (by decide)⟩

/-- C6: on a list `pre ++ e :: post` where nothing in `pre` matches and
`e` does (address assigned, family `AF_INET`, name equal), the resolver's
result is exactly the processing of `e`; the right-hand side does not
mention `post`, so later matching entries have no effect. -/
theorem resolver_first_match_wins :
    ∀ (env : ConvEnv) (jN jS : Nat) (pre post : List ifaddrs_rec)
      (e : ifaddrs_rec) (sa : sockaddr_rec) (name : String),
      e.ifa_addr = some sa → sa.sa_family = AF_INET → e.ifa_name = name →
      NoMatch name pre →
      get_iface_info_ env jN jS (some (pre ++ e :: post)) name =
        processEntry env jN jS e sa := by
  intro env jN jS pre post e sa name he hf hn hpre
  exact scan_first_match env jN jS name pre post e sa he hf hn hpre

/-- Witness for C6: the scan over loopback, the `/24` entry, and a second
`eth0` entry returns the processing of the first `eth0` entry. -/
theorem resolver_first_match_wins_witness :
    (maskEntry 24).ifa_addr = some ⟨2, 0xC0A8010A, 0⟩ ∧
    get_iface_info_ env4 0 0 (some ([loEntry] ++ maskEntry 24 :: [otherEth0]))
        "eth0" =
      processEntry env4 0 0 (maskEntry 24) ⟨2, 0xC0A8010A, 0⟩ :=
  ⟨rfl,
   resolver_first_match_wins env4 0 0 [loEntry] [otherEth0] (maskEntry 24)
     ⟨2, 0xC0A8010A, 0⟩ "eth0" rfl rfl rfl (by decide)⟩

/-- C9 counterexample: with a conversion environment whose text-to-binary
re-parse always reports failure, the resolver still succeeds (the source
ignores `inet_pton`'s return value), continuing with the indeterminate
`num_addr`, here 0, hence prefix length 0 and broadcast
`255.255.255.255`. -/
theorem conv_pton_ignored_cex :
    env_noPton.pton "255.255.255.0" = none ∧
    get_iface_info_ env_noPton 0 0 (some [maskEntry 24]) "eth0" =
      .ok { host_addr := "192.168.1.10", netmask := "255.255.255.0",
            broadcast := "255.255.255.255", pflen := 0, scopeid := 0 } :=
  ⟨rfl, rfl⟩

/-- C9 (amended): every non-success return of the binary-to-text
conversions (host address, then netmask) is a hard resolution failure; the
text-to-binary re-parse of the netmask, by contrast, has its return value
ignored. -/
theorem conv_ntop_failure_hard :
    ∀ (env : ConvEnv) (jN jS : Nat) (pre post : List ifaddrs_rec)
      (e : ifaddrs_rec) (sa : sockaddr_rec) (name : String),
      e.ifa_addr = some sa → sa.sa_family = AF_INET → e.ifa_name = name →
      NoMatch name pre →
      (env.ntop sa.addr = none →
        get_iface_info_ env jN jS (some (pre ++ e :: post)) name =
          .error .hostConvFailed) ∧
      (∀ s, env.ntop sa.addr = some s → env.ntop e.ifa_netmask = none →
        get_iface_info_ env jN jS (some (pre ++ e :: post)) name =
          .error .netmaskConvFailed) := by
  intro env jN jS pre post e sa name he hf hn hpre
  have hsc := scan_first_match env jN jS name pre post e sa he hf hn hpre
  constructor
  · intro hna
    show scan_ifaddrs env jN jS name (pre ++ e :: post) = _
    rw [hsc]
    unfold processEntry
    rw [hna]
  · intro s hs hnm
    show scan_ifaddrs env jN jS name (pre ++ e :: post) = _
    rw [hsc]
    unfold processEntry
    rw [hs, hnm]

/-- Witness for the amended C9 theorem: a failing host conversion and a
failing netmask conversion each abort resolution with the matching
error. -/
theorem conv_ntop_failure_hard_witness :
    get_iface_info_ env_noNtop 0 0 (some [maskEntry 24]) "eth0" =
      .error .hostConvFailed ∧
    get_iface_info_ env_maskFail 0 0 (some [maskEntry 24]) "eth0" =
      .error .netmaskConvFailed :=
  ⟨(conv_ntop_failure_hard env_noNtop 0 0 [] [] (maskEntry 24)
      ⟨2, 0xC0A8010A, 0⟩ "eth0" rfl rfl rfl (by decide)).1 rfl,
   (conv_ntop_failure_hard env_maskFail 0 0 [] [] (maskEntry 24)
      ⟨2, 0xC0A8010A, 0⟩ "eth0" rfl rfl rfl (by decide)).2
     (ntop4 0xC0A8010A) rfl rfl⟩

/-- The scan either succeeds with exactly the success-branch event
sequence or fails having emitted no event at all. -/
theorem scanTrace_shape (env : ConvEnv) (jN jS : Nat) (name : String) :
    ∀ l : List ifaddrs_rec,
      (isOkE (scanTrace env jN jS name l).1 = true ∧
        (scanTrace env jN jS name l).2 =
          [Event.allocCidrAddr, Event.allocCidrBroadcast,
           Event.allocBroadcastStr, Event.freeBroadcastStr,
           Event.freeCidrBroadcast, Event.freeCidrAddr,
           Event.freeIfaddrs]) ∨
      (isOkE (scanTrace env jN jS name l).1 = false ∧
        (scanTrace env jN jS name l).2 = []) := by
  intro l
  induction l with
  | nil => exact Or.inr ⟨rfl, rfl⟩
  | cons e rest ih =>
    cases hpa : e.ifa_addr with
    | none =>
      simp only [scanTrace, hpa]
      exact ih
    | some sa =>
      simp only [scanTrace, hpa]
      by_cases h1 : sa.sa_family = AF_INET
      · by_cases h2 : e.ifa_name = name
        · rw [if_pos h1, if_pos h2]
          unfold processEntryTrace
          cases hna : env.ntop sa.addr with
          | none => exact Or.inr ⟨rfl, rfl⟩
          | some host_str =>
            cases hnm : env.ntop e.ifa_netmask with
            | none => exact Or.inr ⟨rfl, rfl⟩
            | some mask_str => exact Or.inl ⟨rfl, rfl⟩
        · rw [if_pos h1, if_neg h2]
          exact ih
      · rw [if_neg h1]
        exact ih

/-- C5 counterexample: on the interface-not-found path the resolver has
acquired the interface list (the `getifaddrs` success) but throws without
releasing it — the trace holds the acquisition and no release. -/
theorem resource_release_cex :
    (get_iface_info_trace env4 0 0 (some [maskEntry 24]) "wlan0").1 =
      .error .ifaceNotFound ∧
    (get_iface_info_trace env4 0 0 (some [maskEntry 24]) "wlan0").2 =
      [Event.allocIfaddrs] ∧
    released (get_iface_info_trace env4 0 0 (some [maskEntry 24]) "wlan0").2 =
      false :=
  ⟨rfl, rfl, rfl⟩

/-- C5 (amended): on the success path every acquired resource — interface
list, both CIDR handles, the broadcast string — is released before the
resolver returns; on every failure path the resolver has either acquired
nothing (enumeration failure) or holds exactly the unreleased interface
list when its error propagates. -/
theorem resource_release_amended :
    ∀ (env : ConvEnv) (jN jS : Nat) (ifaces : Option (List ifaddrs_rec))
      (name : String),
      (isOkE (get_iface_info_trace env jN jS ifaces name).1 = true →
        released (get_iface_info_trace env jN jS ifaces name).2 = true) ∧
      (isOkE (get_iface_info_trace env jN jS ifaces name).1 = false →
        (get_iface_info_trace env jN jS ifaces name).2 = [] ∨
          (get_iface_info_trace env jN jS ifaces name).2 =
            [Event.allocIfaddrs]) := by
  intro env jN jS ifaces name
  cases ifaces with
  | none => exact ⟨fun h => Bool.noConfusion h, fun _ => Or.inl rfl⟩
  | some l =>
    have h1 : (get_iface_info_trace env jN jS (some l) name).1 =
        (scanTrace env jN jS name l).1 := rfl
    have h2 : (get_iface_info_trace env jN jS (some l) name).2 =
        Event.allocIfaddrs :: (scanTrace env jN jS name l).2 := rfl
    rcases scanTrace_shape env jN jS name l with ⟨hok, hev⟩ | ⟨hok, hev⟩
    · constructor
      · intro _
        rw [h2, hev]
        rfl
      · intro hko
        rw [h1, hok] at hko
        exact Bool.noConfusion hko
    · constructor
      · intro hko
        rw [h1, hok] at hko
        exact Bool.noConfusion hko
      · intro _
        rw [h2, hev]
        exact Or.inr rfl

/-- Witness for the amended C5 theorem: a successful resolution has a
balanced trace, and a failed enumeration acquired nothing. -/
theorem resource_release_amended_witness :
    released (get_iface_info_trace env4 0 0 (some [maskEntry 24]) "eth0").2 =
      true ∧
    ((get_iface_info_trace env4 0 0 none "eth0").2 = [] ∨
      (get_iface_info_trace env4 0 0 none "eth0").2 = [Event.allocIfaddrs]) :=
  ⟨(resource_release_amended env4 0 0 (some [maskEntry 24]) "eth0").1 rfl,
   (resource_release_amended env4 0 0 none "eth0").2 rfl⟩
